import Mathlib

/-!
Verification development for the VLESS-over-WebSocket relay in `src/main.ts`.

The repository file contains two complete server programs; the second one
(the "VLESS WebSocket Proxy Server", lines 625-1353) is the full relay the
specification's core describes (early data, PROXYIP fallback, UDP/DNS
framing).  The definitions below are a shallow embedding of that program:

* bytes are `Nat` (buffer contents, `Uint8Array` entries),
* `ArrayBuffer` / `Uint8Array` values are `List Nat`,
* JavaScript strings are Lean `String`,
* fallible code (thrown exceptions) is `Except`/`Option`,
* the event-driven relay is modelled as explicit state passing over the
  sequence of inbound WebSocket chunks, and the upstream-to-client pipe as a
  function of the list of upstream chunks, each paired with the WebSocket
  `readyState === OPEN` flag observed when the chunk is handled.

JavaScript semantics notes reflected below:
* `Uint8Array`/`ArrayBuffer.slice` clamps to the buffer end (`List.take` /
  `List.drop`);
* reading a single byte out of bounds yields `undefined`, which every
  consumer in the source treats the same way as an impossible value; it is
  modelled by `List.getD _ 0` (byte 0 is likewise rejected at each of those
  consumers: command 0 is unsupported, address type 0 is invalid);
* `new DataView(buf).getUint16(off)` throws a `RangeError` when fewer than
  two bytes are available, modelled as an explicit `thrownRangeError`.
-/

/-- `isValidUUID` (line 642): the regex
`[0-9a-f]8-[0-9a-f]4-4[0-9a-f]3-[89ab][0-9a-f]3-[0-9a-f]12` with the `i`
flag, as a predicate on the character list: 36 characters, dashes at
positions 8, 13, 18, 23, the literal version nibble `4` at position 14, the
variant nibble at position 19 in 8/9/a/b (case-insensitive), all remaining
characters hexadecimal (case-insensitive). -/
def isHexC (c : Char) : Bool :=
  ('0' ≤ c && c ≤ '9') || ('a' ≤ c && c ≤ 'f') || ('A' ≤ c && c ≤ 'F')

def isVariantC (c : Char) : Bool :=
  c = '8' || c = '9' || c = 'a' || c = 'b' || c = 'A' || c = 'B'

def isValidUUIDchars : List Char → Bool
  | a1 :: a2 :: a3 :: a4 :: a5 :: a6 :: a7 :: a8 :: '-' ::
    b1 :: b2 :: b3 :: b4 :: '-' ::
    '4' :: c2 :: c3 :: c4 :: '-' ::
    d1 :: d2 :: d3 :: d4 :: '-' ::
    e1 :: e2 :: e3 :: e4 :: e5 :: e6 :: e7 :: e8 :: e9 :: e10 :: e11 :: e12 :: [] =>
    isHexC a1 && isHexC a2 && isHexC a3 && isHexC a4 &&
    isHexC a5 && isHexC a6 && isHexC a7 && isHexC a8 &&
    isHexC b1 && isHexC b2 && isHexC b3 && isHexC b4 &&
    isHexC c2 && isHexC c3 && isHexC c4 &&
    isVariantC d1 && isHexC d2 && isHexC d3 && isHexC d4 &&
    isHexC e1 && isHexC e2 && isHexC e3 && isHexC e4 &&
    isHexC e5 && isHexC e6 && isHexC e7 && isHexC e8 &&
    isHexC e9 && isHexC e10 && isHexC e11 && isHexC e12
  | _ => false

def isValidUUID (s : String) : Bool := isValidUUIDchars s.data

/-- One nibble as a lowercase hex character (as produced by
`(i + 256).toString(16)` digit by digit): code 48 is `0`, code 97 is `a`,
so values 10..15 map to `97 + (n - 10) = 87 + n`. -/
def hexChar (n : Nat) : Char :=
  if n < 10 then Char.ofNat (48 + n)
  else if n < 16 then Char.ofNat (87 + n)
  else '*'

/-- `byteToHex[b]` (lines 739-742): `(b + 256).toString(16).slice(1)`, i.e.
the two lowercase hex digits of a byte `b < 256`. -/
def pairHex (b : Nat) : List Char := [hexChar (b / 16), hexChar (b % 16)]

/-- The 36-character dashed rendering built by `stringifyUUID`
(lines 744-753); the source's `.toLowerCase()` is a no-op because
`byteToHex` is already lowercase. -/
def stringifyChars (arr : List Nat) (offset : Nat) : List Char :=
  pairHex (arr.getD (offset + 0) 0) ++ pairHex (arr.getD (offset + 1) 0) ++
  pairHex (arr.getD (offset + 2) 0) ++ pairHex (arr.getD (offset + 3) 0) ++ ['-'] ++
  pairHex (arr.getD (offset + 4) 0) ++ pairHex (arr.getD (offset + 5) 0) ++ ['-'] ++
  pairHex (arr.getD (offset + 6) 0) ++ pairHex (arr.getD (offset + 7) 0) ++ ['-'] ++
  pairHex (arr.getD (offset + 8) 0) ++ pairHex (arr.getD (offset + 9) 0) ++ ['-'] ++
  pairHex (arr.getD (offset + 10) 0) ++ pairHex (arr.getD (offset + 11) 0) ++
  pairHex (arr.getD (offset + 12) 0) ++ pairHex (arr.getD (offset + 13) 0) ++
  pairHex (arr.getD (offset + 14) 0) ++ pairHex (arr.getD (offset + 15) 0)

/-- `stringifyUUID` (lines 738-759): renders the 16 bytes at `offset` and
then RE-VALIDATES the rendering with `isValidUUID`, throwing
`TypeError('Invalid UUID')` on failure — modelled as `none`. -/
def stringifyUUID (arr : List Nat) (offset : Nat) : Option String :=
  let s : String := ⟨stringifyChars arr offset⟩
  if isValidUUID s then some s else none

/-- WHATWG UTF-8 decoding with replacement, the behaviour of
`new TextDecoder().decode` used for domain addresses (line 822).  On a
malformed subsequence a U+FFFD is emitted and decoding resumes at the next
byte that was not consumed.  The first argument is recursion fuel: every
step consumes at least one input byte, so fuel equal to the input length
(as supplied by `utf8Decode`) is never exhausted. -/
def utf8DecodeFuel : Nat → List Nat → List Char
  | 0, _ => []
  | _, [] => []
  | fuel + 1, b :: rest =>
    if b ≤ 0x7F then Char.ofNat b :: utf8DecodeFuel fuel rest
    else if 0xC2 ≤ b && b ≤ 0xDF then
      match rest with
      | c1 :: r1 =>
        if 0x80 ≤ c1 && c1 ≤ 0xBF then
          Char.ofNat ((b % 32) * 64 + (c1 % 64)) :: utf8DecodeFuel fuel r1
        else Char.ofNat 0xFFFD :: utf8DecodeFuel fuel rest
      | [] => [Char.ofNat 0xFFFD]
    else if 0xE0 ≤ b && b ≤ 0xEF then
      match rest with
      | c1 :: r1 =>
        if (if b = 0xE0 then 0xA0 else 0x80) ≤ c1 &&
           c1 ≤ (if b = 0xED then 0x9F else 0xBF) then
          match r1 with
          | c2 :: r2 =>
            if 0x80 ≤ c2 && c2 ≤ 0xBF then
              Char.ofNat ((b % 16) * 4096 + (c1 % 64) * 64 + (c2 % 64)) ::
                utf8DecodeFuel fuel r2
            else Char.ofNat 0xFFFD :: utf8DecodeFuel fuel r1
          | [] => [Char.ofNat 0xFFFD]
        else Char.ofNat 0xFFFD :: utf8DecodeFuel fuel rest
      | [] => [Char.ofNat 0xFFFD]
    else if 0xF0 ≤ b && b ≤ 0xF4 then
      match rest with
      | c1 :: r1 =>
        if (if b = 0xF0 then 0x90 else 0x80) ≤ c1 &&
           c1 ≤ (if b = 0xF4 then 0x8F else 0xBF) then
          match r1 with
          | c2 :: r2 =>
            if 0x80 ≤ c2 && c2 ≤ 0xBF then
              match r2 with
              | c3 :: r3 =>
                if 0x80 ≤ c3 && c3 ≤ 0xBF then
                  Char.ofNat ((b % 8) * 262144 + (c1 % 64) * 4096 +
                    (c2 % 64) * 64 + (c3 % 64)) :: utf8DecodeFuel fuel r3
                else Char.ofNat 0xFFFD :: utf8DecodeFuel fuel r2
              | [] => [Char.ofNat 0xFFFD]
            else Char.ofNat 0xFFFD :: utf8DecodeFuel fuel r1
          | [] => [Char.ofNat 0xFFFD]
        else Char.ofNat 0xFFFD :: utf8DecodeFuel fuel rest
      | [] => [Char.ofNat 0xFFFD]
    else Char.ofNat 0xFFFD :: utf8DecodeFuel fuel rest

def utf8Decode (l : List Nat) : List Char := utf8DecodeFuel l.length l

def textDecoderDecode (l : List Nat) : String := ⟨utf8Decode l⟩

/-- Lowercase hexadecimal digits of `n` (JavaScript `n.toString(16)` without
the leading-zero special case).  The first argument is recursion fuel;
`n` itself is always enough, as supplied by `hexGroup`. -/
def natToHexCore : Nat → Nat → List Char
  | 0, _ => []
  | fuel + 1, n => if n = 0 then [] else natToHexCore fuel (n / 16) ++ [hexChar (n % 16)]

/-- `v.toString(16).padStart(4, '0')` for one IPv6 group (line 831). -/
def hexGroup (v : Nat) : String :=
  let ds := if v = 0 then ['0'] else natToHexCore v v
  ⟨List.replicate (4 - ds.length) '0' ++ ds⟩

/-- Errors of `processVlessHeader` (lines 764-852).  The `thrown…`
constructors are exceptions that escape the function (it has no
`try`/`catch` in this program variant): `thrownInvalidUUID` is the
`TypeError` raised by `stringifyUUID`'s re-validation, `thrownRangeError`
the `RangeError` of a `DataView` read past the buffer end. -/
inductive VlessError where
  | invalidDataLength
  | thrownInvalidUUID
  | invalidUser
  | unsupportedCommand (c : Nat)
  | thrownRangeError
  | invalidAddressType (t : Nat)
  | emptyAddressValue
  deriving DecidableEq, Repr

structure VlessHeader where
  addressRemote : String
  addressType : Nat
  portRemote : Nat
  rawDataIndex : Nat
  vlessVersion : Nat
  isUDP : Bool
  deriving DecidableEq, Repr

/-- The `switch (addressType)` block of `processVlessHeader`
(lines 812-837) plus the empty-address check and the final result
(lines 839-851).  `addressPart` is the buffer from `addressIndex` on
(`vlessBuffer.drop addressIndex`), so the absolute buffer reads
`vlessBuffer[addressIndex + k]` become `addressPart.getD k` and the
absolute slices become relative `drop`/`take`; `addressIndex` itself is
passed along because `rawDataIndex` is an absolute offset. -/
def parseVlessAddress (addressPart : List Nat) (addressIndex portRemote version : Nat)
    (isUDP : Bool) : Except VlessError VlessHeader :=
  let addressType := addressPart.getD 0 0
  if addressType = 1 then
    let ipBytes := (addressPart.drop 1).take 4
    let addressValue := String.intercalate "." (ipBytes.map (fun b => toString b))
    if addressValue = "" then .error .emptyAddressValue
    else .ok ⟨addressValue, 1, portRemote, addressIndex + 1 + 4, version, isUDP⟩
  else if addressType = 2 then
    let domainLength := addressPart.getD 1 0
    let addressValue := textDecoderDecode ((addressPart.drop 2).take domainLength)
    if addressValue = "" then .error .emptyAddressValue
    else .ok ⟨addressValue, 2, portRemote, addressIndex + 1 + 1 + domainLength, version, isUDP⟩
  else if addressType = 3 then
    if addressPart.length < 17 then .error .thrownRangeError
    else
      let groups := (List.range 8).map (fun i =>
        hexGroup (256 * addressPart.getD (1 + 2 * i) 0 + addressPart.getD (1 + 2 * i + 1) 0))
      let addressValue := String.intercalate ":" groups
      if addressValue = "" then .error .emptyAddressValue
      else .ok ⟨addressValue, 3, portRemote, addressIndex + 1 + 16, version, isUDP⟩
  else .error (.invalidAddressType addressType)

/-- `processVlessHeader` (lines 764-852) of the main proxy variant.  Note
that, unlike the first embedded variant, this parser does not validate the
version byte, it accepts IPv6, and it calls `stringifyUUID` on the wire
bytes (which re-validates UUID form and can throw). -/
def processVlessHeader (vlessBuffer : List Nat) (userID : String) :
    Except VlessError VlessHeader :=
  if vlessBuffer.length < 24 then .error .invalidDataLength
  else
    let version := vlessBuffer.getD 0 0
    match stringifyUUID ((vlessBuffer.drop 1).take 16) 0 with
    | none => .error .thrownInvalidUUID
    | some s =>
      if s ≠ userID then .error .invalidUser
      else
        let optLength := vlessBuffer.getD 17 0
        let command := vlessBuffer.getD (18 + optLength) 0
        if command = 1 || command = 2 then
          let isUDP := command == 2
          let portIndex := 18 + optLength + 1
          if vlessBuffer.length < portIndex + 2 then .error .thrownRangeError
          else
            let portRemote := 256 * vlessBuffer.getD portIndex 0 +
              vlessBuffer.getD (portIndex + 1) 0
            let addressIndex := portIndex + 2
            parseVlessAddress (vlessBuffer.drop addressIndex) addressIndex portRemote
              version isUDP
        else .error (.unsupportedCommand command)

/-- ASCII whitespace stripped by the WHATWG forgiving-base64 algorithm
behind `atob`. -/
def isAsciiWhitespace (c : Char) : Bool :=
  c = ' ' || c = '\t' || c = '\n' || c = '\r' || c = Char.ofNat 12

def b64CharVal (c : Char) : Option Nat :=
  if 'A' ≤ c && c ≤ 'Z' then some (c.toNat - 'A'.toNat)
  else if 'a' ≤ c && c ≤ 'z' then some (c.toNat - 'a'.toNat + 26)
  else if '0' ≤ c && c ≤ '9' then some (c.toNat - '0'.toNat + 52)
  else if c = '+' then some 62
  else if c = '/' then some 63
  else none

/-- Strip up to two trailing `=` when the (whitespace-free) length is a
multiple of 4, per forgiving-base64. -/
def b64StripEq (cs : List Char) : List Char :=
  if cs.length % 4 = 0 then
    match cs.reverse with
    | '=' :: '=' :: r => r.reverse
    | '=' :: r => r.reverse
    | _ => cs
  else cs

/-- Bit accumulator of forgiving-base64: 6 bits per character, a byte is
emitted whenever 8 bits are available. -/
def b64Bits : List Nat → Nat → Nat → List Nat
  | [], _, _ => []
  | v :: vs, acc, bits =>
    let acc' := acc * 64 + v
    let bits' := bits + 6
    if 8 ≤ bits' then
      ((acc' / 2 ^ (bits' - 8)) % 256) :: b64Bits vs (acc' % 2 ^ (bits' - 8)) (bits' - 8)
    else b64Bits vs acc' bits'

/-- `atob` = WHATWG forgiving-base64 decode: strip ASCII whitespace, strip
up to two trailing `=` (only when the length is a multiple of 4), reject a
residual length of 1 mod 4 and any character outside the base64 alphabet;
otherwise produce the decoded bytes. -/
def atobForgiving (s : String) : Option (List Nat) :=
  let cs := (s.data.filter (fun c => !isAsciiWhitespace c))
  let cs := b64StripEq cs
  if cs.length % 4 = 1 then none
  else
    match cs.mapM b64CharVal with
    | none => none
    | some vs => some (b64Bits vs 0 0)

/-- The `-`→`+`, `_`→`/` translation of `base64ToArrayBuffer`
(line 726). -/
def translateUrlSafe (s : String) : String :=
  ⟨s.data.map (fun c => if c = '-' then '+' else if c = '_' then '/' else c)⟩

/-- `base64ToArrayBuffer` (lines 723-733): empty input yields no early
data; otherwise translate URL-safe characters and `atob`-decode, returning
the decode error on failure. -/
def base64ToArrayBuffer (base64Str : String) : Except Unit (Option (List Nat)) :=
  if base64Str = "" then .ok none
  else
    match atobForgiving (translateUrlSafe base64Str) with
    | none => .error ()
    | some bytes => .ok (some bytes)

/-- `makeReadableWebSocketStream` (lines 857-898) as the chunk sequence the
relay's `pipeTo` destination observes: a decode error of the
`sec-websocket-protocol` early data errors the stream in `start` (before
any chunk is delivered); successfully decoded early data is enqueued in
`start`, i.e. at the head of the stream, before every WebSocket message
chunk. -/
def makeReadableWebSocketStream (earlyDataHeader : String)
    (wsMessages : List (List Nat)) : Except Unit (List (List Nat)) :=
  match base64ToArrayBuffer earlyDataHeader with
  | .error _ => .error ()
  | .ok none => .ok wsMessages
  | .ok (some earlyData) => .ok (earlyData :: wsMessages)

/-- Observable upstream-directed effects of the relay's inbound `write`
(lines 1080-1136): `dial a p d` is `connectAndWrite(a, p)` writing the
residual payload `d` (lines 912-926), `tcpWrite` a follow-up write to the
open remote socket, `udpWrite` a chunk handed to the UDP transform via
`udpStreamWrite`. -/
inductive WsAction where
  | dial (address : String) (port : Nat) (data : List Nat)
  | tcpWrite (data : List Nat)
  | udpWrite (data : List Nat)
  deriving DecidableEq, Repr

def WsAction.payloadData : WsAction → List Nat
  | .dial _ _ d => d
  | .tcpWrite d => d
  | .udpWrite d => d

def WsAction.isDial : WsAction → Bool
  | .dial _ _ _ => true
  | _ => false

inductive RelayError where
  | parseError (e : VlessError)
  | udpNotPermitted
  deriving DecidableEq, Repr

/-- Per-connection mutable state of `vlessOverWSHandler`: `isDns` and
whether `remoteSocketWrapper.value` has been set. -/
structure RelayState where
  isDns : Bool
  remoteSocketSet : Bool
  deriving DecidableEq, Repr

def initialRelayState : RelayState := ⟨false, false⟩

/-- One call of the `WritableStream.write` in `vlessOverWSHandler`
(lines 1080-1136): DNS chunks go to the UDP writer, chunks after a dial go
to the remote socket, otherwise the chunk is parsed; `UDP proxy only
enabled for DNS (port 53)` is thrown for UDP on any port other than 53;
a successful TCP parse dials with the residual payload
`chunk.slice(rawDataIndex)`, a successful DNS parse hands the residual to
the UDP writer. -/
def relayWrite (userID : String) (st : RelayState) (chunk : List Nat) :
    Except RelayError (RelayState × List WsAction) :=
  if st.isDns then .ok (st, [.udpWrite chunk])
  else if st.remoteSocketSet then .ok (st, [.tcpWrite chunk])
  else
    match processVlessHeader chunk userID with
    | .error e => .error (.parseError e)
    | .ok h =>
      if h.isUDP && h.portRemote ≠ 53 then .error .udpNotPermitted
      else
        let rawClientData := chunk.drop h.rawDataIndex
        if h.isUDP then .ok (⟨true, st.remoteSocketSet⟩, [.udpWrite rawClientData])
        else .ok (⟨st.isDns, true⟩, [.dial h.addressRemote h.portRemote rawClientData])

def relayWriteActions (userID : String) (st : RelayState) (chunk : List Nat) :
    List WsAction :=
  match relayWrite userID st chunk with
  | .ok (_, as) => as
  | .error _ => []

/-- Fold `relayWrite` over the chunk stream; a thrown error aborts the pipe
(`pipeTo` rejects, the later chunks are never written).  Returns the
emitted actions and whether the connection failed. -/
def relayRunGo (userID : String) (st : RelayState) (acc : List WsAction) :
    List (List Nat) → List WsAction × Bool
  | [] => (acc, false)
  | c :: cs =>
    match relayWrite userID st c with
    | .error _ => (acc, true)
    | .ok (st', as) => relayRunGo userID st' (acc ++ as) cs

/-- `vlessOverWSHandler` (lines 1061-1151), composed from the WebSocket
stream (with early data) and the inbound write loop. -/
def relayRunActions (userID earlyDataHeader : String)
    (wsMessages : List (List Nat)) : List WsAction × Bool :=
  match makeReadableWebSocketStream earlyDataHeader wsMessages with
  | .error _ => ([], true)
  | .ok chunks => relayRunGo userID initialRelayState [] chunks

/-- `remoteSocketToWS` (lines 940-986).  Each upstream chunk is paired with
the `webSocket.readyState === OPEN` flag at the moment it is handled.
`hasIncomingData` is set before the open check, so a chunk arriving on a
closed WebSocket still counts as incoming data but aborts the pipe
(`throw new Error('WebSocket not open')`) without being sent.  While the
response-header parameter is non-empty it is prepended to the chunk and
then the (local) parameter is cleared.  Returns the frames sent to the
client and the final `hasIncomingData`. -/
def remoteSocketToWS (vlessResponseHeader : List Nat) :
    List (List Nat × Bool) → List (List Nat) × Bool
  | [] => ([], false)
  | (chunk, wsOpen) :: rest =>
    if wsOpen then
      ((if vlessResponseHeader.length > 0 then vlessResponseHeader ++ chunk else chunk) ::
        (remoteSocketToWS [] rest).1, true)
    else ([], true)

/-- `handleTCPOutBound` (lines 903-935) with `remoteSocketToWS`'s retry
hand-off (lines 982-985): dial `addressRemote`, write the residual client
payload, pipe the upstream to the WebSocket; when the pipe ends with
`hasIncomingData` still false, `retry()` dials `proxyIP || addressRemote`
on the same port, writes the same payload again and pipes the second
socket with `retry = null` (so at most one retry).  The response-header
argument passed to the retry pipe is the caller's unmutated array:
`remoteSocketToWS` only clears its own parameter.  `primaryChunks` and
`retryChunks` are the upstream chunk sequences of the two sockets.
Returns the dial list (address, port, payload written) and the frames sent
to the client. -/
def handleTCPOutBound (proxyIP addressRemote : String) (portRemote : Nat)
    (rawClientData : List Nat) (vlessResponseHeader : List Nat)
    (primaryChunks retryChunks : List (List Nat × Bool)) :
    List (String × Nat × List Nat) × List (List Nat) :=
  let r1 := remoteSocketToWS vlessResponseHeader primaryChunks
  if r1.2 then ([(addressRemote, portRemote, rawClientData)], r1.1)
  else
    let r2 := remoteSocketToWS vlessResponseHeader retryChunks
    ([(addressRemote, portRemote, rawClientData),
      ((if proxyIP = "" then addressRemote else proxyIP), portRemote, rawClientData)],
     r1.1 ++ r2.1)

/-- `[(udpSize >> 8) & 0xff, udpSize & 0xff]` (line 1026). -/
def udpSizeBuffer (udpSize : Nat) : List Nat := [(udpSize / 256) % 256, udpSize % 256]

/-- The DoH-reply side of `handleUDPOutBound` (lines 1014-1043): each DoH
reply body is framed with its 2-byte big-endian length; if the WebSocket is
not open the reply is dropped (no send, flag unchanged); the first frame
actually sent is prefixed with the VLESS response header, after which
`isVlessHeaderSent` is true.  Replies are paired with the observed
`readyState === OPEN` flag. -/
def udpReplySends (vlessResponseHeader : List Nat) (isVlessHeaderSent : Bool) :
    List (List Nat × Bool) → List (List Nat)
  | [] => []
  | (dnsQueryResult, wsOpen) :: rest =>
    if wsOpen then
      (if isVlessHeaderSent then udpSizeBuffer dnsQueryResult.length ++ dnsQueryResult
       else vlessResponseHeader ++ udpSizeBuffer dnsQueryResult.length ++ dnsQueryResult) ::
        udpReplySends vlessResponseHeader true rest
    else udpReplySends vlessResponseHeader isVlessHeaderSent rest

/-- The inbound `TransformStream` of `handleUDPOutBound` (lines 998-1010):
scan one WebSocket frame, repeatedly reading a big-endian 2-byte length and
then that many bytes (`slice` clamps, so a declared length exceeding the
residual yields a truncated datagram), enqueueing each datagram.  With
exactly one residual byte, `getUint16` on the 1-byte slice throws a
`RangeError`: the datagrams already enqueued stand, and the error flag is
set.  A zero length enqueues an empty datagram and the scan continues. -/
def udpTransform : List Nat → List (List Nat) × Bool
  | [] => ([], false)
  | [_] => ([], true)
  | a :: b :: r =>
    let udpPacketLength := 256 * a + b
    let next := udpTransform (r.drop udpPacketLength)
    ((r.take udpPacketLength) :: next.1, next.2)
termination_by l => l.length
decreasing_by simp_all [List.length_cons, List.length_drop]; omega

/-- Spec-side shape of the frames a DNS connection emits: the first frame
carries the response header, every frame carries the big-endian length
prefix of its body. -/
def dnsFrames (vlessResponseHeader : List Nat) : List (List Nat) → List (List Nat)
  | [] => []
  | b :: bs =>
    (vlessResponseHeader ++ udpSizeBuffer b.length ++ b) ::
      bs.map (fun x => udpSizeBuffer x.length ++ x)

/-- Spec-side shape of the frames a TCP relay sends: the first relayed
chunk is prefixed with the response header, the rest pass verbatim. -/
def prefixFirst (hdr : List Nat) : List (List Nat) → List (List Nat)
  | [] => []
  | c :: cs => (hdr ++ c) :: cs

/-- The chunks that actually reach the client: the longest prefix of the
upstream chunk sequence during which the WebSocket stays open. -/
def openData (cs : List (List Nat × Bool)) : List (List Nat) :=
  (cs.takeWhile (fun p => p.2)).map (fun p => p.1)

def exceptHasError (r : Except VlessError VlessHeader) : Bool :=
  match r with
  | .error _ => true
  | .ok _ => false

def parsedRawDataIndex (r : Except VlessError VlessHeader) : Option Nat :=
  match r with
  | .ok h => some h.rawDataIndex
  | .error _ => none

/-- The default configured UUID (line 629). -/
def defaultUserID : String := "e5185305-1984-4084-81e0-f77271159c62"

/-- The 16 bytes of the default configured UUID. -/
def defaultUserIDBytes : List Nat :=
  [229, 24, 83, 5, 25, 132, 64, 132, 129, 224, 247, 114, 113, 21, 156, 98]

instance {ε α : Type} [DecidableEq ε] [DecidableEq α] : DecidableEq (Except ε α) := fun a b =>
  match a, b with
  | .error x, .error y =>
    if h : x = y then isTrue (congrArg Except.error h)
    else isFalse (fun hc => h (Except.error.inj hc))
  | .ok x, .ok y =>
    if h : x = y then isTrue (congrArg Except.ok h)
    else isFalse (fun hc => h (Except.ok.inj hc))
  | .error _, .ok _ => isFalse (fun hc => Except.noConfusion hc)
  | .ok _, .error _ => isFalse (fun hc => Except.noConfusion hc)

/-! ## Helper lemmas -/

theorem prefixFirst_nil_header (l : List (List Nat)) : prefixFirst [] l = l := by
  cases l <;> simp [prefixFirst]

theorem prefixFirst_length (hdr : List Nat) (l : List (List Nat)) :
    (prefixFirst hdr l).length = l.length := by
  cases l <;> simp [prefixFirst]

theorem prefixFirst_flatten (hdr : List Nat) (l : List (List Nat)) (h : l ≠ []) :
    (prefixFirst hdr l).flatten = hdr ++ l.flatten := by
  cases l with
  | nil => exact absurd rfl h
  | cons c cs => simp [prefixFirst, List.flatten_cons]

theorem remoteSocketToWS_sends (hdr : List Nat) (cs : List (List Nat × Bool)) :
    (remoteSocketToWS hdr cs).1 = prefixFirst hdr (openData cs) := by
  induction cs generalizing hdr with
  | nil => rfl
  | cons p rest ih =>
    obtain ⟨c, o⟩ := p
    cases o with
    | false => simp [remoteSocketToWS, openData, List.takeWhile, prefixFirst]
    | true =>
      simp only [remoteSocketToWS, if_pos, openData, List.takeWhile]
      rw [ih []]
      rw [prefixFirst_nil_header]
      cases hdr with
      | nil => simp [openData, prefixFirst]
      | cons h hs => simp [openData, prefixFirst]

theorem remoteSocketToWS_flag (hdr : List Nat) (cs : List (List Nat × Bool)) :
    (remoteSocketToWS hdr cs).2 = !cs.isEmpty := by
  cases cs with
  | nil => rfl
  | cons p rest =>
    obtain ⟨c, o⟩ := p
    cases o <;> simp [remoteSocketToWS]

theorem udpReplySends_sent_true (hdr : List Nat) (rs : List (List Nat × Bool)) :
    udpReplySends hdr true rs =
      ((rs.filter fun p => p.2).map fun p => p.1).map
        (fun x => udpSizeBuffer x.length ++ x) := by
  induction rs with
  | nil => rfl
  | cons p rest ih =>
    obtain ⟨b, o⟩ := p
    cases o <;> simp [udpReplySends, List.filter, ih]

theorem udpReplySends_sent_false (hdr : List Nat) (rs : List (List Nat × Bool)) :
    udpReplySends hdr false rs =
      dnsFrames hdr ((rs.filter fun p => p.2).map fun p => p.1) := by
  induction rs with
  | nil => rfl
  | cons p rest ih =>
    obtain ⟨b, o⟩ := p
    cases o with
    | false => simpa [udpReplySends, List.filter] using ih
    | true =>
      simp [udpReplySends, List.filter, dnsFrames, udpReplySends_sent_true]

theorem filter_open_map_true (replies : List (List Nat)) :
    (((replies.map (fun b => (b, true))).filter fun p => p.2).map fun p => p.1) = replies := by
  induction replies <;> simp_all

/-! ## Equation lemmas for the well-founded `udpTransform` -/

@[simp] theorem udpTransform_nil : udpTransform [] = ([], false) := by
  simp [udpTransform]

@[simp] theorem udpTransform_single (a : Nat) : udpTransform [a] = ([], true) := by
  simp [udpTransform]

theorem udpTransform_cons (a b : Nat) (r : List Nat) :
    udpTransform (a :: b :: r)
      = ((r.take (256 * a + b)) :: (udpTransform (r.drop (256 * a + b))).1,
         (udpTransform (r.drop (256 * a + b))).2) := by
  rw [udpTransform]

/-! ## Claims about the TCP relay pipe and the fallback retry -/

/-- C1 (amended): over the whole lifetime of an established TCP relay —
primary socket plus at most one fallback retry — the frames sent to the
client are exactly the relayed upstream chunks with the 2-byte VLESS
response header prepended to the first frame and to no other; consequently,
whenever any upstream chunk is relayed, every byte of the header is
delivered before every upstream payload byte, and the header is delivered
exactly once.  (The un-amended claim's "exactly one header for every
established connection" fails when the upstream produces no bytes at all:
then nothing, in particular no header, is ever sent — see the
counterexample.) -/
theorem claim_C1 (proxyIP addressRemote : String) (portRemote : Nat)
    (rawClientData vlessResponseHeader : List Nat)
    (primaryChunks retryChunks : List (List Nat × Bool)) :
    (handleTCPOutBound proxyIP addressRemote portRemote rawClientData
        vlessResponseHeader primaryChunks retryChunks).2
      = prefixFirst vlessResponseHeader
          (openData (if primaryChunks.isEmpty then retryChunks else primaryChunks))
    ∧ (openData (if primaryChunks.isEmpty then retryChunks else primaryChunks) ≠ [] →
        (handleTCPOutBound proxyIP addressRemote portRemote rawClientData
            vlessResponseHeader primaryChunks retryChunks).2.flatten
          = vlessResponseHeader ++
            (openData (if primaryChunks.isEmpty then retryChunks else primaryChunks)).flatten) := by
  have hmain :
      (handleTCPOutBound proxyIP addressRemote portRemote rawClientData
          vlessResponseHeader primaryChunks retryChunks).2
        = prefixFirst vlessResponseHeader
            (openData (if primaryChunks.isEmpty then retryChunks else primaryChunks)) := by
    cases primaryChunks with
    | nil =>
      simp [handleTCPOutBound, remoteSocketToWS_flag, remoteSocketToWS_sends,
        openData, prefixFirst]
    | cons p rest =>
      simp [handleTCPOutBound, remoteSocketToWS_flag, remoteSocketToWS_sends]
  refine ⟨hmain, fun hne => ?_⟩
  rw [hmain, prefixFirst_flatten _ _ hne]

/-- Witness for C1 at a concrete input: one upstream chunk `[9]` on the
primary socket with the WebSocket open; the client receives the single
frame `header ++ [9]`. -/
theorem claim_C1_wit :
    (handleTCPOutBound "" "1.2.3.4" 443 [7] [0, 0] [([9], true)] []).2.flatten
      = [0, 0] ++ (openData [([9], true)]).flatten :=
  (claim_C1 "" "1.2.3.4" 443 [7] [0, 0] [([9], true)] []).2 (by decide)

/-- Counterexample to C1 as stated: a TCP connection that is established
(the dial succeeds — the dial list is non-empty) but whose upstream sockets
deliver no chunks sends nothing at all to the client, so the number of
VLESS response headers delivered over the connection lifetime is zero, not
exactly one. -/
theorem claim_C1_cx :
    (handleTCPOutBound "" "203.0.113.5" 443 [] [0, 0] [] []).2 = [] ∧
    (handleTCPOutBound "" "203.0.113.5" 443 [] [0, 0] [] []).1 ≠ [] := by
  constructor <;> decide

/-- C3 (amended): per TCP relay there are at most two dials, the first
always to the parsed address with the residual post-header payload; a
retry dial happens exactly when the primary upstream pipe ended with
`hasIncomingData` still false, and it goes to `proxyIP || addressRemote` —
the fallback host when `PROXYIP` is configured, otherwise the *original*
address again — on the same port, re-sending the same residual payload.
(The un-amended claim's "no retry occurs when fallbackUpstream is not
configured" fails: with `proxyIP = ""` the code still retries, dialing the
original address — see the counterexample.) -/
theorem claim_C3 (proxyIP addressRemote : String) (portRemote : Nat)
    (rawClientData vlessResponseHeader : List Nat)
    (primaryChunks retryChunks : List (List Nat × Bool)) :
    (handleTCPOutBound proxyIP addressRemote portRemote rawClientData
        vlessResponseHeader primaryChunks retryChunks).1
      = (if primaryChunks.isEmpty then
          [(addressRemote, portRemote, rawClientData),
           ((if proxyIP = "" then addressRemote else proxyIP), portRemote, rawClientData)]
         else [(addressRemote, portRemote, rawClientData)])
    ∧ (handleTCPOutBound proxyIP addressRemote portRemote rawClientData
        vlessResponseHeader primaryChunks retryChunks).1.length ≤ 2 := by
  have hmain :
      (handleTCPOutBound proxyIP addressRemote portRemote rawClientData
          vlessResponseHeader primaryChunks retryChunks).1
        = (if primaryChunks.isEmpty then
            [(addressRemote, portRemote, rawClientData),
             ((if proxyIP = "" then addressRemote else proxyIP), portRemote, rawClientData)]
           else [(addressRemote, portRemote, rawClientData)]) := by
    cases primaryChunks with
    | nil => simp [handleTCPOutBound, remoteSocketToWS_flag]
    | cons p rest => simp [handleTCPOutBound, remoteSocketToWS_flag]
  refine ⟨hmain, ?_⟩
  rw [hmain]
  cases primaryChunks <;> simp

/-- Counterexample to C3 as stated: `PROXYIP` is not configured
(`proxyIP = ""`) and the primary socket closes with zero upstream bytes;
the code nonetheless performs a retry dial — to the original address —
so two dials happen even though no fallbackUpstream is configured. -/
theorem claim_C3_cx :
    (handleTCPOutBound "" "198.51.100.7" 80 [72, 73] [0, 0] [] []).1
      = [("198.51.100.7", 80, [72, 73]), ("198.51.100.7", 80, [72, 73])] := by
  decide

/-! ## Claims about the DNS (UDP/53) path -/

/-- C7: on a DNS connection every emitted frame is the 2-byte big-endian
length of the DoH reply body followed by that body, and the first emitted
frame is additionally preceded by the VLESS response header; the length
prefix decodes big-endian to the body length whenever the body is shorter
than 2^16. -/
theorem claim_C7 (vlessResponseHeader : List Nat) (replies : List (List Nat)) :
    udpReplySends vlessResponseHeader false (replies.map (fun b => (b, true)))
      = dnsFrames vlessResponseHeader replies
    ∧ (∀ b : List Nat, (udpSizeBuffer b.length ++ b).length = 2 + b.length)
    ∧ (∀ b : List Nat, b.length < 65536 →
        256 * (udpSizeBuffer b.length).getD 0 0 + (udpSizeBuffer b.length).getD 1 0
          = b.length) := by
  refine ⟨?_, ?_, ?_⟩
  · rw [udpReplySends_sent_false, filter_open_map_true]
  · intro b; simp [udpSizeBuffer]; omega
  · intro b hb
    simp only [udpSizeBuffer, List.getD_cons_zero, List.getD_cons_succ]
    omega

/-- Witness for C7: a 3-byte reply `[1, 2, 3]` with header `[0, 0]` reaches
the client as `[0, 0, 0, 3, 1, 2, 3]`, and its length prefix decodes to
3. -/
theorem claim_C7_wit :
    udpReplySends [0, 0] false ([[1, 2, 3]].map (fun b => (b, true)))
      = dnsFrames [0, 0] [[1, 2, 3]]
    ∧ 256 * (udpSizeBuffer 3).getD 0 0 + (udpSizeBuffer 3).getD 1 0 = 3 :=
  ⟨(claim_C7 [0, 0] [[1, 2, 3]]).1,
   (claim_C7 [0, 0] [[1, 2, 3]]).2.2 [1, 2, 3] (by decide)⟩

/-- C8 (amended): the datagram decoder repeatedly reads a big-endian 2-byte
length and then at most that many bytes, pushing each payload downstream
(well-framed input is decoded exactly); a single residual byte makes the
`getUint16` throw (flag `true`); but a zero length is NOT rejected — it
pushes an empty datagram and the scan continues — and residual bytes fewer
than the declared length are NOT rejected: the truncated payload is pushed
with no error.  (The un-amended claim's `ZeroLengthDatagram` rejection
fails — see the counterexample.) -/
theorem claim_C8 :
    (∀ ds : List (List Nat), (∀ d ∈ ds, d.length < 65536) →
      udpTransform ((ds.map (fun d => udpSizeBuffer d.length ++ d)).flatten) = (ds, false))
    ∧ (∀ a : Nat, udpTransform [a] = ([], true))
    ∧ (∀ (a b : Nat) (r : List Nat), r.length ≤ 256 * a + b →
        udpTransform (a :: b :: r) = ([r], false)) := by
  refine ⟨?_, fun a => udpTransform_single a, ?_⟩
  · intro ds
    induction ds with
    | nil => intro _; simp
    | cons d rest ih =>
      intro hall
      have hd : d.length < 65536 := hall d (by simp)
      have hlen : 256 * ((d.length / 256) % 256) + d.length % 256 = d.length := by omega
      have ihr := ih (fun x hx => hall x (List.mem_cons_of_mem _ hx))
      rw [List.map_cons, List.flatten_cons]
      have hshape : (udpSizeBuffer d.length ++ d) ++
            (List.map (fun d => udpSizeBuffer d.length ++ d) rest).flatten
          = (d.length / 256) % 256 :: (d.length % 256) ::
            (d ++ (List.map (fun d => udpSizeBuffer d.length ++ d) rest).flatten) := by
        simp [udpSizeBuffer]
      rw [hshape, udpTransform_cons, hlen, List.take_left' rfl, List.drop_left' rfl, ihr]
  · intro a b r hr
    rw [udpTransform_cons, List.drop_eq_nil_of_le (by omega),
      List.take_of_length_le (by omega), udpTransform_nil]

/-- Witness for C8: the well-framed frame `[0, 3, 1, 2, 3]` decodes to the
single datagram `[1, 2, 3]` with no error. -/
theorem claim_C8_wit :
    udpTransform ((([[1, 2, 3]] : List (List Nat)).map
        (fun d => udpSizeBuffer d.length ++ d)).flatten) = ([[1, 2, 3]], false) :=
  claim_C8.1 [[1, 2, 3]] (by decide)

/-- Counterexample to C8 as stated: the frame `[0, 0]` declares a
zero-length datagram; the decoder does not reject it as a framing error —
it pushes an empty datagram downstream and reports no error. -/
theorem claim_C8_cx : udpTransform [0, 0] = ([[]], false) := by
  rw [show ([0, 0] : List Nat) = 0 :: 0 :: [] from rfl, udpTransform_cons]
  simp

/-! ## Claim about sends being gated on the WebSocket being open -/

/-- C10: bytes go to the client only while `readyState` is OPEN.  On the
TCP pipe the frames sent are exactly one per chunk of the longest open
prefix — the first chunk seen while the socket is not open aborts the pipe
and neither it nor any later chunk is sent.  On the DNS path the frames
sent are exactly the frames of the open-state replies — a reply seen while
the socket is not open is silently discarded and processing continues. -/
theorem claim_C10 (hdr : List Nat) (cs rs : List (List Nat × Bool)) :
    (remoteSocketToWS hdr cs).1.length = (cs.takeWhile fun p => p.2).length
    ∧ udpReplySends hdr false rs
        = dnsFrames hdr ((rs.filter fun p => p.2).map fun p => p.1)
    ∧ (∀ (c : List Nat) (rest : List (List Nat × Bool)),
        (remoteSocketToWS hdr ((c, false) :: rest)).1 = []) := by
  refine ⟨?_, udpReplySends_sent_false hdr rs, fun c rest => by simp [remoteSocketToWS]⟩
  rw [remoteSocketToWS_sends, prefixFirst_length]
  simp [openData]

/-! ## Injectivity of the UUID rendering, and the authentication claims -/

theorem hexChar_inj : ∀ m : Nat, m < 16 → ∀ n : Nat, n < 16 →
    hexChar m = hexChar n → m = n := by decide

theorem stringifyChars_inj (l₁ l₂ : List Nat) (h₁ : l₁.length = 16) (h₂ : l₂.length = 16)
    (hb₁ : ∀ x ∈ l₁, x < 256) (hb₂ : ∀ x ∈ l₂, x < 256)
    (heq : stringifyChars l₁ 0 = stringifyChars l₂ 0) : l₁ = l₂ := by
  have hx : ∀ i : Nat, i < 16 → l₁.getD i 0 < 256 := by
    intro i hi
    have hilt : i < l₁.length := by omega
    rw [List.getD_eq_getElem l₁ 0 hilt]
    exact hb₁ _ (List.getElem_mem hilt)
  have hy : ∀ i : Nat, i < 16 → l₂.getD i 0 < 256 := by
    intro i hi
    have hilt : i < l₂.length := by omega
    rw [List.getD_eq_getElem l₂ 0 hilt]
    exact hb₂ _ (List.getElem_mem hilt)
  simp only [stringifyChars, pairHex, List.cons_append, List.nil_append,
    List.append_assoc, Nat.zero_add] at heq
  simp only [List.cons.injEq, and_true, true_and] at heq
  obtain ⟨q0a, q0b, q1a, q1b, q2a, q2b, q3a, q3b, q4a, q4b, q5a, q5b, q6a, q6b,
    q7a, q7b, q8a, q8b, q9a, q9b, q10a, q10b, q11a, q11b, q12a, q12b, q13a, q13b,
    q14a, q14b, q15a, q15b⟩ := heq
  have mk : ∀ i : Nat, i < 16 →
      hexChar (l₁.getD i 0 / 16) = hexChar (l₂.getD i 0 / 16) →
      hexChar (l₁.getD i 0 % 16) = hexChar (l₂.getD i 0 % 16) →
      l₁.getD i 0 = l₂.getD i 0 := by
    intro i hi ha hbq
    have d1 : l₁.getD i 0 / 16 = l₂.getD i 0 / 16 :=
      hexChar_inj _ (by have := hx i hi; omega) _ (by have := hy i hi; omega) ha
    have d2 : l₁.getD i 0 % 16 = l₂.getD i 0 % 16 :=
      hexChar_inj _ (by omega) _ (by omega) hbq
    omega
  have e0 := mk 0 (by omega) q0a q0b
  have e1 := mk 1 (by omega) q1a q1b
  have e2 := mk 2 (by omega) q2a q2b
  have e3 := mk 3 (by omega) q3a q3b
  have e4 := mk 4 (by omega) q4a q4b
  have e5 := mk 5 (by omega) q5a q5b
  have e6 := mk 6 (by omega) q6a q6b
  have e7 := mk 7 (by omega) q7a q7b
  have e8 := mk 8 (by omega) q8a q8b
  have e9 := mk 9 (by omega) q9a q9b
  have e10 := mk 10 (by omega) q10a q10b
  have e11 := mk 11 (by omega) q11a q11b
  have e12 := mk 12 (by omega) q12a q12b
  have e13 := mk 13 (by omega) q13a q13b
  have e14 := mk 14 (by omega) q14a q14b
  have e15 := mk 15 (by omega) q15a q15b
  apply List.ext_getElem (by omega)
  intro i hi1 hi2
  have hi : i < 16 := by omega
  have conv1 : ∀ j : Nat, ∀ hj : j < l₁.length, l₁.getD j 0 = l₁[j] :=
    fun j hj => List.getD_eq_getElem l₁ 0 hj
  have conv2 : ∀ j : Nat, ∀ hj : j < l₂.length, l₂.getD j 0 = l₂[j] :=
    fun j hj => List.getD_eq_getElem l₂ 0 hj
  interval_cases i <;>
    simp only [← conv1 _ hi1, ← conv2 _ hi2] <;>
    first
    | exact e0 | exact e1 | exact e2 | exact e3 | exact e4 | exact e5 | exact e6
    | exact e7 | exact e8 | exact e9 | exact e10 | exact e11 | exact e12
    | exact e13 | exact e14 | exact e15

/-- C2 (amended): for every first inbound message of at least 24 bytes whose
bytes 1..17 differ from the configured 16-byte server UUID (given by its
canonical rendering `uid`), the connection terminates with a parse error and
no upstream dial or DoH write is attempted.  However, the on-the-wire UUID
bytes are NOT merely compared byte-wise: `stringifyUUID` re-validates their
canonical rendering for v4 UUID form, so wire bytes whose version/variant
nibbles are malformed abort with a thrown `Invalid UUID` `TypeError` rather
than with the `Invalid user` error — see the counterexample. -/
theorem claim_C2 (msg ubConf : List Nat) (uid : String)
    (hconfLen : ubConf.length = 16) (hconfBytes : ∀ x ∈ ubConf, x < 256)
    (huid : uid = ⟨stringifyChars ubConf 0⟩)
    (hbytes : ∀ x ∈ msg, x < 256)
    (hdiff : (msg.drop 1).take 16 ≠ ubConf) :
    exceptHasError (processVlessHeader msg uid) = true
    ∧ relayRunActions uid "" [msg] = ([], true) := by
  have herr : exceptHasError (processVlessHeader msg uid) = true := by
    unfold processVlessHeader
    by_cases hlen : msg.length < 24
    · rw [if_pos hlen]; rfl
    · rw [if_neg hlen]
      cases hstr : stringifyUUID ((msg.drop 1).take 16) 0 with
      | none => simp [hstr, exceptHasError]
      | some s =>
        have hwlen : ((msg.drop 1).take 16).length = 16 := by
          simp [List.length_take, List.length_drop]; omega
        have hwbytes : ∀ x ∈ (msg.drop 1).take 16, x < 256 :=
          fun x hxx => hbytes x (List.mem_of_mem_drop (List.mem_of_mem_take hxx))
        have hsv : s = ⟨stringifyChars ((msg.drop 1).take 16) 0⟩ := by
          simp only [stringifyUUID, Option.ite_none_right_eq_some, Option.some.injEq] at hstr
          exact hstr.2.symm
        have hsne : s ≠ uid := by
          intro hcontr
          apply hdiff
          apply stringifyChars_inj _ _ hwlen hconfLen hwbytes hconfBytes
          have hstrs : (⟨stringifyChars ((msg.drop 1).take 16) 0⟩ : String)
              = ⟨stringifyChars ubConf 0⟩ := by rw [← hsv, hcontr, huid]
          exact congrArg String.data hstrs
        simp [hstr, hsne, exceptHasError]
  refine ⟨herr, ?_⟩
  cases hp : processVlessHeader msg uid with
  | ok h => rw [hp] at herr; simp [exceptHasError] at herr
  | error e =>
    simp [relayRunActions, makeReadableWebSocketStream, base64ToArrayBuffer,
      relayRunGo, relayWrite, initialRelayState, hp]

/-- Witness for C2: a first message whose 16 UUID bytes are all `0x11`
(canonically well-formed in neither version nor variant nibble, and in any
case different from the configured bytes) makes the parse fail and the
relay perform no action. -/
theorem claim_C2_wit :
    exceptHasError (processVlessHeader
        ([0] ++ List.replicate 16 17 ++ [0, 1, 0, 80, 1, 1, 1, 1, 1]) defaultUserID) = true
    ∧ relayRunActions defaultUserID ""
        [[0] ++ List.replicate 16 17 ++ [0, 1, 0, 80, 1, 1, 1, 1, 1]] = ([], true) :=
  claim_C2 ([0] ++ List.replicate 16 17 ++ [0, 1, 0, 80, 1, 1, 1, 1, 1])
    defaultUserIDBytes defaultUserID (by decide) (by decide) (by decide) (by decide)
    (by decide)

/-- Counterexample to C2 as stated: a first message whose UUID bytes are all
zero terminates with the thrown `Invalid UUID` `TypeError` coming from
`stringifyUUID`'s form re-validation (version nibble 0, variant nibble 0) —
not with the `Invalid user` authentication error the claim names, refuting
"the on-the-wire UUID bytes are never re-validated for UUID form". -/
theorem claim_C2_cx :
    processVlessHeader ([0] ++ List.replicate 16 0 ++ [0, 1, 0, 80, 1, 1, 1, 1, 1])
        defaultUserID = .error .thrownInvalidUUID
    ∧ VlessError.thrownInvalidUUID ≠ VlessError.invalidUser := by
  constructor <;> decide

/-- C4: a well-formed first message with command UDP (2) and a port other
than 53 makes the relay's write throw `UDP proxy only enabled for DNS
(port 53)`; the connection fails with no action at all — no upstream dial
and no DoH write. -/
theorem claim_C4 (uid : String) (chunk : List Nat) (h : VlessHeader)
    (hparse : processVlessHeader chunk uid = .ok h)
    (hudp : h.isUDP = true) (hport : h.portRemote ≠ 53) :
    relayWrite uid initialRelayState chunk = .error .udpNotPermitted
    ∧ relayRunActions uid "" [chunk] = ([], true) := by
  have hrw : relayWrite uid initialRelayState chunk = .error .udpNotPermitted := by
    simp [relayWrite, initialRelayState, hparse, hudp, hport]
  refine ⟨hrw, ?_⟩
  simp [relayRunActions, makeReadableWebSocketStream, base64ToArrayBuffer,
    relayRunGo, hrw]

/-- Witness for C4: the scenario-S5 message (correct UUID, command 2, port
443, IPv4 1.1.1.1) is rejected with `udpNotPermitted` and produces no
dial and no DoH write. -/
theorem claim_C4_wit :
    relayWrite defaultUserID initialRelayState
        ([0] ++ defaultUserIDBytes ++ [0, 2, 1, 187, 1, 1, 1, 1, 1])
      = .error .udpNotPermitted
    ∧ relayRunActions defaultUserID ""
        [[0] ++ defaultUserIDBytes ++ [0, 2, 1, 187, 1, 1, 1, 1, 1]] = ([], true) :=
  claim_C4 defaultUserID ([0] ++ defaultUserIDBytes ++ [0, 2, 1, 187, 1, 1, 1, 1, 1])
    ⟨"1.1.1.1", 1, 443, 26, 0, true⟩ (by decide) rfl (by decide)

/-! ## Structured-buffer evaluation of the header parser -/

theorem getD_append_len (l₁ l₂ : List Nat) (k d : Nat) :
    (l₁ ++ l₂).getD (l₁.length + k) d = l₂.getD k d := by
  simp [List.getD_eq_getElem?_getD, List.getElem?_append_right (Nat.le_add_right _ _)]

/-- Evaluation of `processVlessHeader` on a structurally well-formed buffer:
version byte, 16 matching UUID bytes, addon length and addons, a valid
command, two port bytes, then the address part.  The parser reaches the
address stage with the absolute address index `21 + optLength`. -/
theorem processVlessHeader_structured (v : Nat) (uid : String) (ub opts : List Nat)
    (cmd p1 p2 : Nat) (addrRest : List Nat)
    (h16 : ub.length = 16) (hs : stringifyUUID ub 0 = some uid)
    (hcmd : cmd = 1 ∨ cmd = 2) (hlen : 3 ≤ addrRest.length) :
    processVlessHeader (v :: ub ++ opts.length :: opts ++ cmd :: p1 :: p2 :: addrRest) uid
      = parseVlessAddress addrRest (21 + opts.length) (256 * p1 + p2) v (cmd == 2) := by
  have hassoc : v :: ub ++ opts.length :: opts ++ cmd :: p1 :: p2 :: addrRest
      = (v :: ub) ++ (opts.length :: (opts ++ cmd :: p1 :: p2 :: addrRest)) := by simp
  have hblen : (v :: ub ++ opts.length :: opts ++ cmd :: p1 :: p2 :: addrRest).length
      = 21 + opts.length + addrRest.length := by
    simp [h16]; omega
  have acc : ∀ k : Nat,
      (v :: ub ++ opts.length :: opts ++ cmd :: p1 :: p2 :: addrRest).getD (17 + k) 0
        = (opts.length :: (opts ++ cmd :: p1 :: p2 :: addrRest)).getD k 0 := by
    intro k
    rw [hassoc, show 17 + k = (v :: ub).length + k from by simp [h16], getD_append_len]
  have acc2 : ∀ k : Nat,
      (opts ++ cmd :: p1 :: p2 :: addrRest).getD (opts.length + k) 0
        = (cmd :: p1 :: p2 :: addrRest).getD k 0 :=
    fun k => getD_append_len _ _ _ _
  have hwire : ((v :: ub ++ opts.length :: opts ++ cmd :: p1 :: p2 :: addrRest).drop 1).take 16
      = ub := by
    have hd : List.drop 1 (v :: ub ++ opts.length :: opts ++ cmd :: p1 :: p2 :: addrRest)
        = ub ++ opts.length :: opts ++ cmd :: p1 :: p2 :: addrRest := rfl
    rw [hd, List.append_assoc]
    exact List.take_left' h16
  have hK : (v :: ub ++ opts.length :: opts ++ cmd :: p1 :: p2 :: addrRest).getD 17 0
      = opts.length := by
    have h := acc 0
    simpa using h
  have hcget : (v :: ub ++ opts.length :: opts ++ cmd :: p1 :: p2 :: addrRest).getD
      (18 + opts.length) 0 = cmd := by
    rw [show 18 + opts.length = 17 + (opts.length + 1) from by omega, acc (opts.length + 1),
      List.getD_cons_succ]
    simpa using acc2 0
  have hp1get : (v :: ub ++ opts.length :: opts ++ cmd :: p1 :: p2 :: addrRest).getD
      (18 + opts.length + 1) 0 = p1 := by
    rw [show 18 + opts.length + 1 = 17 + (opts.length + 1 + 1) from by omega,
      acc (opts.length + 1 + 1), List.getD_cons_succ,
      show opts.length + 1 = opts.length + 1 from rfl]
    have h := acc2 1
    rw [h]
    rfl
  have hp2get : (v :: ub ++ opts.length :: opts ++ cmd :: p1 :: p2 :: addrRest).getD
      (18 + opts.length + 1 + 1) 0 = p2 := by
    rw [show 18 + opts.length + 1 + 1 = 17 + (opts.length + 2 + 1) from by omega,
      acc (opts.length + 2 + 1), List.getD_cons_succ]
    have h := acc2 2
    rw [h]
    rfl
  have hdrop : (v :: ub ++ opts.length :: opts ++ cmd :: p1 :: p2 :: addrRest).drop
      (21 + opts.length) = addrRest := by
    have hre : v :: ub ++ opts.length :: opts ++ cmd :: p1 :: p2 :: addrRest
        = (v :: ub ++ opts.length :: opts ++ [cmd, p1, p2]) ++ addrRest := by
      simp
    rw [hre]
    apply List.drop_left'
    simp [h16]
    omega
  unfold processVlessHeader
  rw [if_neg (by omega)]
  rw [hwire, hs]
  simp only []
  rw [if_neg (fun hne => hne rfl)]
  rw [hK, hcget]
  have hcv : (decide (cmd = 1) || decide (cmd = 2)) = true := by
    rcases hcmd with rfl | rfl <;> simp
  rw [if_pos hcv]
  rw [if_neg (by omega)]
  rw [hp1get, hp2get]
  rw [show 18 + opts.length + 1 + 2 = 21 + opts.length from by omega]
  rw [hdrop]
  rfl

/-! ## Address-stage evaluation lemmas -/

theorem utf8Decode_cons_ne_nil (b : Nat) (r : List Nat) : utf8Decode (b :: r) ≠ [] := by
  show utf8DecodeFuel (b :: r).length (b :: r) ≠ []
  rw [List.length_cons]
  simp only [utf8DecodeFuel]
  repeat' split
  all_goals simp

theorem textDecoderDecode_ne_empty (l : List Nat) (h : l ≠ []) :
    textDecoderDecode l ≠ "" := by
  cases l with
  | nil => exact absurd rfl h
  | cons b r =>
    intro hc
    have h2 := congrArg String.data hc
    exact utf8Decode_cons_ne_nil b r h2

theorem intercalate_dot_ne_empty (w x y z : String) :
    String.intercalate "." [w, x, y, z] ≠ "" := by
  simp only [String.intercalate, String.intercalate.go]
  intro h
  have h2 := congrArg String.data h
  simp [String.data_append] at h2

theorem intercalate_colon_ne_empty (g0 g1 g2 g3 g4 g5 g6 g7 : String) :
    String.intercalate ":" [g0, g1, g2, g3, g4, g5, g6, g7] ≠ "" := by
  simp only [String.intercalate, String.intercalate.go]
  intro h
  have h2 := congrArg String.data h
  simp [String.data_append] at h2

theorem parseVlessAddress_ipv4 (a1 a2 a3 a4 : Nat) (payload : List Nat)
    (ai port v : Nat) (udp : Bool) :
    parseVlessAddress (1 :: a1 :: a2 :: a3 :: a4 :: payload) ai port v udp
      = .ok ⟨String.intercalate "."
          [toString a1, toString a2, toString a3, toString a4],
          1, port, ai + 1 + 4, v, udp⟩ := by
  simp [parseVlessAddress, intercalate_dot_ne_empty]

theorem parseVlessAddress_domain (dbytes payload : List Nat) (hne : dbytes ≠ [])
    (ai port v : Nat) (udp : Bool) :
    parseVlessAddress (2 :: dbytes.length :: (dbytes ++ payload)) ai port v udp
      = .ok ⟨textDecoderDecode dbytes, 2, port, ai + 1 + 1 + dbytes.length, v, udp⟩ := by
  have htake : ((2 :: dbytes.length :: (dbytes ++ payload)).drop 2).take dbytes.length
      = dbytes := by
    show (dbytes ++ payload).take dbytes.length = dbytes
    exact List.take_left' rfl
  simp only [parseVlessAddress, List.getD_cons_zero, List.getD_cons_succ, if_true]
  rw [htake]
  rw [if_neg (textDecoderDecode_ne_empty dbytes hne)]
  rw [if_neg (by decide : ¬ (2 : Nat) = 1)]

theorem parseVlessAddress_ipv6 (b0 b1 b2 b3 b4 b5 b6 b7 b8 b9 b10 b11 b12 b13 b14 b15 : Nat)
    (payload : List Nat) (ai port v : Nat) (udp : Bool) :
    parseVlessAddress (3 :: b0 :: b1 :: b2 :: b3 :: b4 :: b5 :: b6 :: b7 :: b8 :: b9 ::
        b10 :: b11 :: b12 :: b13 :: b14 :: b15 :: payload) ai port v udp
      = .ok ⟨String.intercalate ":"
          [hexGroup (256 * b0 + b1), hexGroup (256 * b2 + b3), hexGroup (256 * b4 + b5),
           hexGroup (256 * b6 + b7), hexGroup (256 * b8 + b9), hexGroup (256 * b10 + b11),
           hexGroup (256 * b12 + b13), hexGroup (256 * b14 + b15)],
          3, port, ai + 1 + 16, v, udp⟩ := by
  have hlen : ¬ (3 :: b0 :: b1 :: b2 :: b3 :: b4 :: b5 :: b6 :: b7 :: b8 :: b9 ::
      b10 :: b11 :: b12 :: b13 :: b14 :: b15 :: payload).length < 17 := by
    simp
  simp only [parseVlessAddress, List.getD_cons_zero, List.getD_cons_succ, if_true]
  rw [if_neg hlen]
  rw [if_neg (by decide : ¬ (3 : Nat) = 1)]
  rw [if_neg (by decide : ¬ (3 : Nat) = 2)]
  split
  · next h => exact absurd h (intercalate_colon_ne_empty
      (hexGroup (256 * b0 + b1)) (hexGroup (256 * b2 + b3)) (hexGroup (256 * b4 + b5))
      (hexGroup (256 * b6 + b7)) (hexGroup (256 * b8 + b9)) (hexGroup (256 * b10 + b11))
      (hexGroup (256 * b12 + b13)) (hexGroup (256 * b14 + b15)))
  · rfl

/-- C5: the header parser of the main proxy program accepts all three
address types.  For address type 1 it reads 4 raw bytes rendered as
dotted-decimal IPv4; for address type 2 one length byte L followed by the
L bytes UTF-8-decoded as a domain; for address type 3 it reads 16 raw
bytes rendered as 8 colon-separated 4-hex-digit groups — IPv6 is NOT
rejected.  (The first embedded program variant rejects IPv6; the spec
explicitly designates the accepting parser, embedded here, as the
specified behaviour.) -/
theorem claim_C5 :
    (∀ (v : Nat) (uid : String) (ub opts : List Nat) (cmd p1 p2 a1 a2 a3 a4 : Nat)
        (payload : List Nat),
      ub.length = 16 → stringifyUUID ub 0 = some uid → cmd = 1 ∨ cmd = 2 →
      processVlessHeader
          (v :: ub ++ opts.length :: opts ++ cmd :: p1 :: p2 ::
            1 :: a1 :: a2 :: a3 :: a4 :: payload) uid
        = .ok ⟨String.intercalate "."
              [toString a1, toString a2, toString a3, toString a4],
            1, 256 * p1 + p2, 26 + opts.length, v, cmd == 2⟩)
    ∧ (∀ (v : Nat) (uid : String) (ub opts : List Nat) (cmd p1 p2 : Nat)
        (dbytes payload : List Nat),
      ub.length = 16 → stringifyUUID ub 0 = some uid → cmd = 1 ∨ cmd = 2 →
      dbytes ≠ [] →
      processVlessHeader
          (v :: ub ++ opts.length :: opts ++ cmd :: p1 :: p2 ::
            2 :: dbytes.length :: (dbytes ++ payload)) uid
        = .ok ⟨textDecoderDecode dbytes, 2, 256 * p1 + p2,
            23 + opts.length + dbytes.length, v, cmd == 2⟩)
    ∧ (∀ (v : Nat) (uid : String) (ub opts : List Nat)
        (cmd p1 p2 b0 b1 b2 b3 b4 b5 b6 b7 b8 b9 b10 b11 b12 b13 b14 b15 : Nat)
        (payload : List Nat),
      ub.length = 16 → stringifyUUID ub 0 = some uid → cmd = 1 ∨ cmd = 2 →
      processVlessHeader
          (v :: ub ++ opts.length :: opts ++ cmd :: p1 :: p2 ::
            3 :: b0 :: b1 :: b2 :: b3 :: b4 :: b5 :: b6 :: b7 :: b8 :: b9 ::
            b10 :: b11 :: b12 :: b13 :: b14 :: b15 :: payload) uid
        = .ok ⟨String.intercalate ":"
              [hexGroup (256 * b0 + b1), hexGroup (256 * b2 + b3),
               hexGroup (256 * b4 + b5), hexGroup (256 * b6 + b7),
               hexGroup (256 * b8 + b9), hexGroup (256 * b10 + b11),
               hexGroup (256 * b12 + b13), hexGroup (256 * b14 + b15)],
            3, 256 * p1 + p2, 38 + opts.length, v, cmd == 2⟩) := by
  refine ⟨?_, ?_, ?_⟩
  · intro v uid ub opts cmd p1 p2 a1 a2 a3 a4 payload h16 hs hcmd
    rw [processVlessHeader_structured v uid ub opts cmd p1 p2 _ h16 hs hcmd (by simp)]
    rw [parseVlessAddress_ipv4]
    simp only [Except.ok.injEq, VlessHeader.mk.injEq, true_and, and_true]
    omega
  · intro v uid ub opts cmd p1 p2 dbytes payload h16 hs hcmd hdne
    rw [processVlessHeader_structured v uid ub opts cmd p1 p2 _ h16 hs hcmd
      (by simp; have := List.length_pos.mpr hdne; omega)]
    rw [parseVlessAddress_domain dbytes payload hdne]
    simp only [Except.ok.injEq, VlessHeader.mk.injEq, true_and, and_true]
    omega
  · intro v uid ub opts cmd p1 p2 b0 b1 b2 b3 b4 b5 b6 b7 b8 b9 b10 b11 b12 b13 b14 b15
      payload h16 hs hcmd
    rw [processVlessHeader_structured v uid ub opts cmd p1 p2 _ h16 hs hcmd (by simp)]
    rw [parseVlessAddress_ipv6]
    simp only [Except.ok.injEq, VlessHeader.mk.injEq, true_and, and_true]
    omega

/-- Witness for C5: concrete accepted messages of all three address
types — IPv4 `1.1.1.1:443`, domain `abc:80`, and IPv6
`2001:db8::1:443` (rendered without zero compression).  In particular the
IPv6 message is accepted, not rejected. -/
theorem claim_C5_wit :
    processVlessHeader ([0] ++ defaultUserIDBytes ++ [0, 1, 1, 187, 1, 1, 1, 1, 1, 72, 73])
        defaultUserID
      = .ok ⟨"1.1.1.1", 1, 443, 26, 0, false⟩
    ∧ processVlessHeader ([0] ++ defaultUserIDBytes ++ [0, 1, 0, 80, 2, 3, 97, 98, 99])
        defaultUserID
      = .ok ⟨"abc", 2, 80, 26, 0, false⟩
    ∧ processVlessHeader ([0] ++ defaultUserIDBytes ++ [0, 1, 1, 187, 3,
          32, 1, 13, 184, 0, 0, 0, 0, 0, 0, 0, 0, 0, 0, 0, 1]) defaultUserID
      = .ok ⟨"2001:0db8:0000:0000:0000:0000:0000:0001", 3, 443, 38, 0, false⟩ :=
  ⟨claim_C5.1 0 defaultUserID defaultUserIDBytes [] 1 1 187 1 1 1 1 [72, 73]
      (by decide) (by decide) (Or.inl rfl),
   claim_C5.2.1 0 defaultUserID defaultUserIDBytes [] 1 0 80 [97, 98, 99] []
      (by decide) (by decide) (Or.inl rfl) (by decide),
   claim_C5.2.2 0 defaultUserID defaultUserIDBytes [] 1 1 187
      32 1 13 184 0 0 0 0 0 0 0 0 0 0 0 1 []
      (by decide) (by decide) (Or.inl rfl)⟩

/-! ## Residual payload offset (C6) and early data (C9) -/

theorem getD_drop_add (l : List Nat) (n m d : Nat) :
    (l.drop n).getD m d = l.getD (n + m) d := by
  simp [List.getD_eq_getElem?_getD, List.getElem?_drop]

set_option maxHeartbeats 1000000 in
/-- C6 (amended): on every successful parse, `rawDataIndex` is the computed
end of the address field — `26 + K` for IPv4, `23 + K + L` for a domain of
declared length `L`, `38 + K` for IPv6, where `K` is the addon length byte.
This offset is NOT bounded by the message length (a truncated message can
parse successfully with `rawDataIndex` beyond its end — see the
counterexample); the payload handed to the upstream write side is always
`msg.drop rawDataIndex`, which is the residual bytes when
`rawDataIndex ≤ length` and the empty payload otherwise. -/
theorem claim_C6 (uid : String) (msg : List Nat) (h : VlessHeader)
    (hparse : processVlessHeader msg uid = .ok h) :
    h.rawDataIndex
      = (if h.addressType = 1 then 26 + msg.getD 17 0
         else if h.addressType = 2 then
           23 + msg.getD 17 0 + msg.getD (22 + msg.getD 17 0) 0
         else 38 + msg.getD 17 0)
    ∧ (h.rawDataIndex ≤ msg.length ∨ msg.drop h.rawDataIndex = [])
    ∧ ((h.isUDP = true → h.portRemote = 53) →
        (relayWriteActions uid initialRelayState msg).map WsAction.payloadData
          = [msg.drop h.rawDataIndex]) := by
  refine ⟨?_, ?_, ?_⟩
  · unfold processVlessHeader at hparse
    dsimp only at hparse
    split at hparse
    · exact Except.noConfusion hparse
    split at hparse
    · exact Except.noConfusion hparse
    split at hparse
    · exact Except.noConfusion hparse
    split at hparse
    case isFalse => exact Except.noConfusion hparse
    split at hparse
    · exact Except.noConfusion hparse
    unfold parseVlessAddress at hparse
    dsimp only at hparse
    split at hparse
    · -- address type 1
      split at hparse
      · exact Except.noConfusion hparse
      have hx := Except.ok.inj hparse
      clear hparse
      subst hx
      simp only [getD_drop_add]
      simp
      omega
    split at hparse
    · -- address type 2
      split at hparse
      · exact Except.noConfusion hparse
      have hx := Except.ok.inj hparse
      clear hparse
      subst hx
      simp only [getD_drop_add]
      simp
      rw [show 18 + msg[17]?.getD 0 + 1 + 2 + 1 = 22 + msg[17]?.getD 0 from by omega]
      omega
    split at hparse
    · -- address type 3
      split at hparse
      · exact Except.noConfusion hparse
      split at hparse
      · exact Except.noConfusion hparse
      have hx := Except.ok.inj hparse
      clear hparse
      subst hx
      simp only [getD_drop_add]
      simp
      omega
    exact Except.noConfusion hparse
  · rcases le_or_lt h.rawDataIndex msg.length with hle | hlt
    · exact Or.inl hle
    · exact Or.inr (List.drop_eq_nil_of_le (by omega))
  · intro hcond
    by_cases hu : h.isUDP = true
    · have hp : h.portRemote = 53 := hcond hu
      simp [relayWriteActions, relayWrite, initialRelayState, hparse, hu, hp,
        WsAction.payloadData]
    · simp [relayWriteActions, relayWrite, initialRelayState, hparse, hu,
        WsAction.payloadData]

set_option maxHeartbeats 1000000 in
/-- Witness for C6: the scenario-S1 message (IPv4 1.1.1.1:443, payload
`HI`) hands exactly the two residual bytes to the upstream write side. -/
theorem claim_C6_wit :
    (relayWriteActions defaultUserID initialRelayState
        ([0] ++ defaultUserIDBytes ++ [0, 1, 1, 187, 1, 1, 1, 1, 1, 72, 73])).map
        WsAction.payloadData = [[72, 73]] :=
  (claim_C6 defaultUserID ([0] ++ defaultUserIDBytes ++ [0, 1, 1, 187, 1, 1, 1, 1, 1, 72, 73])
    ⟨"1.1.1.1", 1, 443, 26, 0, false⟩ (by decide)).2.2 (by simp)

set_option maxHeartbeats 1000000 in
/-- Counterexample to C6 as stated: a 24-byte message whose IPv4 address
field is truncated to two bytes still parses successfully (the slice
clamps, the dotted rendering `9.9` is non-empty), and the returned
`rawDataIndex` is 26, which exceeds the 24-byte message length —
refuting `rawDataIndex ≤ length of the message` on success. -/
theorem claim_C6_cx :
    parsedRawDataIndex (processVlessHeader
        ([0] ++ defaultUserIDBytes ++ [0, 1, 0, 80, 1, 9, 9]) defaultUserID) = some 26
    ∧ ([0] ++ defaultUserIDBytes ++ [0, 1, 0, 80, 1, 9, 9]).length = 24
    ∧ ¬ (26 ≤ 24) :=
  ⟨by decide, by decide, by decide⟩

/-- C9: for every connection with a non-empty `sec-websocket-protocol`
header, the header value is decoded as URL-safe base64 (translating `-` to
`+` and `_` to `/`, then forgiving-base64); on decode failure the stream
errors in `start`, so the connection fails with no action — in particular
before any upstream dial; on success the decoded bytes are enqueued in
`start`, at the head of the inbound chunk stream, before every WebSocket
message chunk. -/
theorem claim_C9 (uid s : String) (msgs : List (List Nat)) (hs0 : s ≠ "") :
    (base64ToArrayBuffer s = .error () → relayRunActions uid s msgs = ([], true))
    ∧ (∀ bytes : List Nat, base64ToArrayBuffer s = .ok (some bytes) →
        makeReadableWebSocketStream s msgs = .ok (bytes :: msgs))
    ∧ base64ToArrayBuffer s
        = (match atobForgiving (translateUrlSafe s) with
           | none => .error ()
           | some bytes => .ok (some bytes)) := by
  refine ⟨?_, ?_, ?_⟩
  · intro herr
    simp [relayRunActions, makeReadableWebSocketStream, herr]
  · intro bytes hok
    simp [makeReadableWebSocketStream, hok]
  · simp [base64ToArrayBuffer, hs0]

/-- Witness for C9: the invalid header `(((` fails the connection with no
action, and the valid URL-safe header `AQID` injects its decoded bytes
`[1, 2, 3]` at the head of the stream, before the WebSocket message. -/
theorem claim_C9_wit :
    relayRunActions "u" "(((" [[1]] = ([], true)
    ∧ makeReadableWebSocketStream "AQID" [[9]] = .ok ([1, 2, 3] :: [[9]]) :=
  ⟨(claim_C9 "u" "(((" [[1]] (by decide)).1 (by decide),
   (claim_C9 "u" "AQID" [[9]] (by decide)).2.1 [1, 2, 3] (by decide)⟩
